import Mathlib

/-!
# Verification of the kiosk presentation manager

A shallow embedding of the presentation manager / player code:

* the player's auto-advance and countdown effects (`PresentationView.tsx`),
* the manager's drag-reorder flow with optimistic update and rollback
  (`PresentationForm`: `handleDragEnd`, `reorderItemsMutation`),
* the item CRUD operations (`addItem`, `deleteItemMutation`,
  `reorderItemsMutation`) acting on a presentation's item list,
* the upload pipeline (`validateImageFile`, `compressImage`,
  `handleImageUpload` with its filename sanitization), and
* the row-level-security policies of the `presentations` and
  `presentation_items` tables (SQL migrations).

Machine reals from JavaScript are embedded as `Int`/`Nat`; timer and
network effects are made explicit as data (scheduled delays, per-update
success flags, compression/upload attempt outcomes).
-/

namespace Kiosk

/-! ## Data model

`presentation_items` row, as selected by the client
(`Tables<'presentation_items'>`).  `display_time` and `order_index` are SQL
integers, embedded as `Int`.  Ids are embedded as `Nat`. -/

structure PresentationItem where
  id : Nat
  presentation_id : Nat
  type : String
  title : String
  url : String
  display_time : Int
  order_index : Int
deriving DecidableEq, Repr

/-- Row of `presentations`.  The `user_id` column is nullable (it was added by
`ALTER TABLE ... ADD COLUMN user_id uuid` with no NOT NULL constraint), so it
is embedded as `Option`. -/
structure PresentationRow where
  id : Nat
  user_id : Option Nat
  is_public : Bool
  title : String
  refresh_interval : Int
deriving DecidableEq, Repr

/-! ## Player: auto-advance effect (`PresentationView.tsx`, lines 63-74)

```
if (items.length === 0) return;
const currentItem = items[currentIndex];
if (!currentItem || currentItem.display_time <= 0) return;
const timer = setTimeout(() => {
  setCurrentIndex((prev) => (prev + 1) % items.length);
}, currentItem.display_time * 60000);
```
-/

/-- The index update performed by the auto-advance timer callback:
`(prev + 1) % items.length`. -/
def advanceIndex (len i : Nat) : Nat :=
  (i + 1) % len

/-- The delay (in milliseconds) of the auto-advance timer scheduled by the
effect, or `none` when the effect returns early without scheduling a timer
(empty list, out-of-range index, or non-positive `display_time`). -/
def autoAdvanceTimer (items : List PresentationItem) (currentIndex : Nat) :
    Option Int :=
  if items.length = 0 then none
  else
    match items[currentIndex]? with
    | none => none
    | some currentItem =>
      if currentItem.display_time ≤ 0 then none
      else some (currentItem.display_time * 60000)

/-- The current index after the scheduled timer (if any) expires: if no timer
was scheduled the index stays put, otherwise the timer callback advances it. -/
def stepOnTimerExpiry (items : List PresentationItem) (i : Nat) : Nat :=
  match autoAdvanceTimer items i with
  | none => i
  | some _ => advanceIndex items.length i

/-! ## Player: slide countdown effect (`PresentationView.tsx`, lines 85-103)

```
const startTime = Date.now();
const duration = currentItem.display_time * 60000;
setSlideTimeRemaining(Math.ceil(duration / 1000));
const interval = setInterval(() => {
  const elapsed = Date.now() - startTime;
  const remaining = Math.max(0, Math.ceil((duration - elapsed) / 1000));
  setSlideTimeRemaining(remaining);
  ...
}, 1000);
```
-/

/-- JavaScript `Math.ceil(x / 1000)` for an integer numerator `x`: the floor quotient,
bumped by one when the division is inexact.  (`/` and `%` on `Int` are
Euclidean here, so for the positive divisor `1000` the quotient is the
floor.) -/
def jsCeilDiv1000 (x : Int) : Int :=
  if x % 1000 = 0 then x / 1000 else x / 1000 + 1

/-- The value shown by the tick handler of the slide countdown, given the
active item's `display_time` (minutes) and the elapsed wall-clock time in
milliseconds: `Math.max(0, Math.ceil((duration - elapsed) / 1000))` with
`duration = display_time * 60000`. -/
def slideRemaining (display_time elapsed : Int) : Int :=
  max 0 (jsCeilDiv1000 (display_time * 60000 - elapsed))

/-- The value the effect stores before the first tick:
`Math.ceil(duration / 1000)`. -/
def initialSlideRemaining (display_time : Int) : Int :=
  jsCeilDiv1000 (display_time * 60000)

/-! ## Manager: drag-reorder (`PresentationForm`: `handleDragEnd`,
`reorderItemsMutation`)

`handleDragEnd` (source lines 268-289):

```
const { active, over } = event;
if (!over || active.id === over.id) return;
const oldIndex = localItems.findIndex(item => item.id === active.id);
const newIndex = localItems.findIndex(item => item.id === over.id);
if (oldIndex === -1 || newIndex === -1) return;
const reorderedItems = arrayMove(localItems, oldIndex, newIndex);
setLocalItems(reorderedItems);
reorderItemsMutation.mutate(reorderedItems);
```
-/

/-- JavaScript `Array.prototype.findIndex` against the item id: the index of the first
item with the given id, or `-1` when no item matches. -/
def findIndexJs (items : List PresentationItem) (targetId : Nat) : Int :=
  match items.findIdx? (fun item => item.id == targetId) with
  | some i => (i : Int)
  | none => -1

/-- The dnd-kit `arrayMove` helper: remove the element at `fromIdx`, then insert it at
`toIdx` of the shortened array.  `handleDragEnd` only calls it with indices
returned by a successful `findIndex`, so the out-of-range guard branch is
unreachable from the modelled call site. -/
def arrayMove (l : List PresentationItem) (fromIdx toIdx : Nat) :
    List PresentationItem :=
  match l[fromIdx]? with
  | none => l
  | some moved => (l.eraseIdx fromIdx).insertIdx toIdx moved

/-- The `handleDragEnd` handler: given the local item list, the dragged item's id and the
drop target's id (`none` when there is no drop target), returns the new local
item list together with the argument passed to `reorderItemsMutation.mutate`
(`none` when no mutation is issued). -/
def handleDragEnd (localItems : List PresentationItem) (activeId : Nat)
    (overId : Option Nat) : List PresentationItem × Option (List PresentationItem) :=
  match overId with
  | none => (localItems, none)
  | some ov =>
    if activeId == ov then (localItems, none)
    else
      let oldIndex := findIndexJs localItems activeId
      let newIndex := findIndexJs localItems ov
      if oldIndex == -1 ∨ newIndex == -1 then (localItems, none)
      else
        let reorderedItems := arrayMove localItems oldIndex.toNat newIndex.toNat
        (reorderedItems, some reorderedItems)

/-- The pieces of client state touched by the reorder flow: the react-query
cache entry for `['presentation-items', id]` (absent when nothing is cached)
and the component's `localItems` state (the displayed order). -/
structure ManagerState where
  cacheItems : Option (List PresentationItem)
  localItems : List PresentationItem
deriving DecidableEq, Repr

/-- One run of `reorderItemsMutation` (source lines 152-196).  `updateResults`
holds the success flag of each per-item `order_index` update issued by the
mutation function (`Promise.all`, then `throw` on the first error).

* `onMutate` snapshots `previousItems = getQueryData(...)` and optimistically
  writes `reorderedItems` to the cache;
* on error, `onError` restores the snapshot into both the cache and
  `localItems` (only when a snapshot exists) and surfaces an error toast;
* on success, `onSuccess` surfaces a success toast.

Returns the resulting state and whether the error toast was surfaced. -/
def reorderMutationRun (st : ManagerState)
    (reorderedItems : List PresentationItem) (updateResults : List Bool) :
    ManagerState × Bool :=
  let previousItems := st.cacheItems
  let optimistic : ManagerState := { st with cacheItems := some reorderedItems }
  if updateResults.all (fun r => r) then
    (optimistic, false)
  else
    match previousItems with
    | some prev => ({ cacheItems := some prev, localItems := prev }, true)
    | none => (optimistic, true)

/-- The full reorder flow triggered by a successful drop: `handleDragEnd` sets
`localItems` to the reordered list and then runs `reorderItemsMutation` on
it. -/
def handleDragEndFlow (st : ManagerState)
    (reorderedItems : List PresentationItem) (updateResults : List Bool) :
    ManagerState × Bool :=
  reorderMutationRun { st with localItems := reorderedItems } reorderedItems
    updateResults

/-! ## Manager: item CRUD effects on one presentation's ordered item list -/

/-- The `order_index` column of every item, in list order. -/
def ordIndexes (items : List PresentationItem) : List Int :=
  items.map (fun item => item.order_index)

/-- The spec's per-presentation invariant: the `order_index` values are
unique and contiguous, i.e. a permutation of `0 .. N-1` for `N` items. -/
def OrderInvariant (items : List PresentationItem) : Prop :=
  List.Perm (ordIndexes items) ((List.range items.length).map Int.ofNat)

instance (items : List PresentationItem) : Decidable (OrderInvariant items) :=
  List.decidablePerm (ordIndexes items) ((List.range items.length).map Int.ofNat)

/-- The `addItem` handler (source lines 253-266): inserts a fresh row whose `order_index`
is the current local item count (`order_index: localItems.length`); the
database appends the row (its id is assigned server-side and is a
parameter here). -/
def addItemOp (items : List PresentationItem) (newId pid : Nat)
    (ty : String) : List PresentationItem :=
  items ++ [{ id := newId, presentation_id := pid, type := ty,
              title := if ty == "image" then "Nova Imagem" else "Novo Dashboard",
              url := "", display_time := 1,
              order_index := (items.length : Int) }]

/-- The `deleteItemMutation` effect (source lines 132-149): `delete().eq('id', id)` —
removes the rows with the given id and nothing else; no renumbering of the
remaining items takes place. -/
def deleteItemOp (items : List PresentationItem) (targetId : Nat) :
    List PresentationItem :=
  items.filter (fun item => item.id != targetId)

/-- The net effect of `reorderItemsMutation`'s update batch (source lines
152-168) on the reordered list: each item's `order_index` becomes its
position (`update({ order_index: index }).eq('id', item.id)` for every
`(item, index)` of `reorderedItems`). -/
def reorderItemsOp (reorderedItems : List PresentationItem) :
    List PresentationItem :=
  reorderedItems.mapIdx (fun index item => { item with order_index := (index : Int) })

/-! ## Upload pipeline (`validateImageFile`, `compressImage`,
`handleImageUpload`) -/

/-- A browser `File` as far as the upload pipeline inspects it: name, MIME
type, and byte size. -/
structure JsFile where
  name : String
  type : String
  size : Nat
deriving DecidableEq, Repr

/-- The `allowedTypes` list of `validateImageFile` (source line 200). -/
def allowedTypes : List String :=
  ["image/jpeg", "image/jpg", "image/png", "image/webp", "image/gif"]

/-- The `maxSizeBeforeCompression` ceiling (source line 201): 20MB. -/
def maxSizeBeforeCompression : Nat := 20 * 1024 * 1024

/-- The `validateImageFile` check (source lines 199-214): reject a disallowed MIME
type, then reject `file.size > maxSizeBeforeCompression`, else accept. -/
def validateImageFile (file : JsFile) : Bool :=
  if !(allowedTypes.contains file.type) then false
  else if file.size > maxSizeBeforeCompression then false
  else true

/-- The options handed to the external compression library (source lines
218-223).  `initialQuality: 0.8` is a floating-point knob of the external
library and is not part of the model. -/
structure CompressionOptions where
  maxSizeMB : Nat
  maxWidthOrHeight : Nat
  useWebWorker : Bool
deriving DecidableEq, Repr

/-- The concrete options object built by `compressImage`. -/
def compressionOptions : CompressionOptions :=
  { maxSizeMB := 1, maxWidthOrHeight := 1920, useWebWorker := true }

/-- The `compressImage` wrapper (source lines 217-238): the external
`imageCompression(file, options)` call is embedded as its outcome
(`attempt`).  On success the compressed file is returned; on failure the
catch block returns the original file, so the error never propagates. -/
def compressImage (file : JsFile) (attempt : Except String JsFile) : JsFile :=
  match attempt with
  | Except.ok compressedFile => compressedFile
  | Except.error _ => file

/-! ### Filename sanitization (`handleImageUpload`, source lines 336-343)

```
const sanitizedName = compressedFile.name
  .normalize('NFD')
  .replace(/[̀-ͯ]/g, '')
  .replace(/[^a-zA-Z0-9.-]/g, '_')
  .replace(/_{2,}/g, '_');
const fileName = `${Date.now()}_${sanitizedName}`;
```

Unicode NFD normalization is a platform API; the model takes the
already-NFD-normalized name as its input string. -/

/-- A combining diacritical mark, `[̀-ͯ]`. -/
def isCombiningMark (c : Char) : Bool :=
  0x300 ≤ c.toNat && c.toNat ≤ 0x36F

/-- A character in the class `[a-zA-Z0-9.-]`, which the second `replace`
keeps unchanged. -/
def isKeptChar (c : Char) : Bool :=
  (0x61 ≤ c.toNat && c.toNat ≤ 0x7A) ||
  (0x41 ≤ c.toNat && c.toNat ≤ 0x5A) ||
  (0x30 ≤ c.toNat && c.toNat ≤ 0x39) ||
  c.toNat == 0x2E || c.toNat == 0x2D

/-- The `.replace(/_{2,}/g, '_')` step: collapse each run of consecutive underscores
to a single underscore. -/
def collapseUnderscores : List Char → List Char
  | [] => []
  | [c] => [c]
  | a :: b :: rest =>
    if a == '_' && b == '_' then collapseUnderscores (b :: rest)
    else a :: collapseUnderscores (b :: rest)

/-- The three `replace` steps applied to the NFD-normalized file name:
drop combining marks, replace every character outside `[a-zA-Z0-9.-]` by an
underscore, collapse underscore runs. -/
def sanitizeFileName (nfdName : String) : String :=
  let noMarks := nfdName.toList.filter (fun c => !(isCombiningMark c))
  let replaced := noMarks.map (fun c => if isKeptChar c then c else '_')
  String.mk (collapseUnderscores replaced)

/-- The storage key: the current timestamp, an underscore, then the
sanitized name. -/
def buildFileName (now : Nat) (nfdName : String) : String :=
  toString now ++ "_" ++ sanitizeFileName nfdName

/-- Observable outcome of one `handleImageUpload` run: whether the
compression step ran, which file was handed to the storage upload call
(`none` when no network call was made), the storage key used, and whether the
item's URL was updated. -/
structure UploadRun where
  compressAttempted : Bool
  uploadedFile : Option JsFile
  storageKey : Option String
  itemUrlUpdated : Bool
deriving DecidableEq, Repr

/-- The `handleImageUpload` handler (source lines 301-372) for a selected file: if
`validateImageFile` fails the handler returns at once (no compression, no
network call); otherwise it compresses (the external call's outcome is the
`compressAttempt` parameter), builds the storage key from the compressed
file's (NFD-normalized) name, uploads, and on upload success stores the
public URL on the item. -/
def handleImageUpload (file : JsFile) (compressAttempt : Except String JsFile)
    (now : Nat) (uploadOk : Bool) : UploadRun :=
  if !(validateImageFile file) then
    { compressAttempted := false, uploadedFile := none, storageKey := none,
      itemUrlUpdated := false }
  else
    let compressedFile := compressImage file compressAttempt
    let fileName := buildFileName now compressedFile.name
    { compressAttempted := true, uploadedFile := some compressedFile,
      storageKey := some fileName, itemUrlUpdated := uploadOk }

/-! ## Row-level-security policies (SQL migrations)

From the ownership migration (policies on `presentations` and
`presentation_items`) and the later migration replacing the item SELECT
policy by "Public items viewable (non-PowerBI) or owner". -/

/-- SQL `lower()` as applied to the `type` column: ASCII lowercasing. -/
def sqlLower (s : String) : String :=
  String.mk (s.toList.map Char.toLower)

/-- The session context: `auth.uid()` is `none` for an anonymous session. -/
structure SessionCtx where
  auth_uid : Option Nat
deriving DecidableEq, Repr

/-- SQL `=` between two nullable uuid values, under three-valued logic as
used in a policy predicate: the comparison only passes when both sides are
non-NULL and equal (`NULL = x` is not TRUE). -/
def sqlEqUid : Option Nat → Option Nat → Bool
  | some a, some b => a == b
  | _, _ => false

/-- Whether the session is the owner of the presentation row:
`auth.uid() = user_id` in SQL semantics. -/
def isOwner (s : SessionCtx) (p : PresentationRow) : Bool :=
  sqlEqUid s.auth_uid p.user_id

/-- SELECT on `presentations`: the public policy (`USING is_public = true`)
or the owner policy (`TO authenticated USING auth.uid() = user_id`). -/
def presSelectAllowed (s : SessionCtx) (p : PresentationRow) : Bool :=
  p.is_public || (s.auth_uid.isSome && isOwner s p)

/-- INSERT on `presentations`: `TO authenticated WITH CHECK (auth.uid() IS
NOT NULL)`. -/
def presInsertAllowed (s : SessionCtx) : Bool :=
  s.auth_uid.isSome

/-- UPDATE on `presentations`: `TO authenticated USING/WITH CHECK
(auth.uid() = user_id)`. -/
def presUpdateAllowed (s : SessionCtx) (p : PresentationRow) : Bool :=
  s.auth_uid.isSome && isOwner s p

/-- DELETE on `presentations`: `TO authenticated USING
(auth.uid() = user_id)`. -/
def presDeleteAllowed (s : SessionCtx) (p : PresentationRow) : Bool :=
  s.auth_uid.isSome && isOwner s p

/-- The `EXISTS (SELECT 1 FROM presentations p WHERE p.id =
presentation_id AND p.user_id = auth.uid())` subquery shared by the item
INSERT/UPDATE/DELETE policies, over the presentations table `ps`. -/
def ownsParent (s : SessionCtx) (ps : List PresentationRow)
    (item : PresentationItem) : Bool :=
  ps.any (fun p => p.id == item.presentation_id && isOwner s p)

/-- SELECT on `presentation_items`, policy "Public items viewable
(non-PowerBI) or owner": `EXISTS` a parent presentation with
`p.user_id = auth.uid() OR (p.is_public = true AND lower(type) <>
'powerbi')`. -/
def itemSelectAllowed (s : SessionCtx) (ps : List PresentationRow)
    (item : PresentationItem) : Bool :=
  ps.any (fun p => p.id == item.presentation_id &&
    (isOwner s p || (p.is_public && sqlLower item.type != "powerbi")))

/-- INSERT on `presentation_items`: `TO authenticated` with the parent
ownership check. -/
def itemInsertAllowed (s : SessionCtx) (ps : List PresentationRow)
    (item : PresentationItem) : Bool :=
  s.auth_uid.isSome && ownsParent s ps item

/-- UPDATE on `presentation_items`: `TO authenticated` with the parent
ownership check (USING and WITH CHECK coincide). -/
def itemUpdateAllowed (s : SessionCtx) (ps : List PresentationRow)
    (item : PresentationItem) : Bool :=
  s.auth_uid.isSome && ownsParent s ps item

/-- DELETE on `presentation_items`: `TO authenticated` with the parent
ownership check. -/
def itemDeleteAllowed (s : SessionCtx) (ps : List PresentationRow)
    (item : PresentationItem) : Bool :=
  s.auth_uid.isSome && ownsParent s ps item

/-! ## Concrete sample rows, used to evaluate the definitions -/

/-- A sample image item. -/
def sampleItemA : PresentationItem :=
  { id := 1, presentation_id := 7, type := "image", title := "a", url := "",
    display_time := 1, order_index := 0 }

/-- A second sample image item. -/
def sampleItemB : PresentationItem :=
  { id := 2, presentation_id := 7, type := "image", title := "b", url := "",
    display_time := 2, order_index := 1 }

/-- A sample dashboard item. -/
def sampleItemC : PresentationItem :=
  { id := 3, presentation_id := 7, type := "powerbi", title := "c", url := "",
    display_time := 3, order_index := 2 }

/-- A sample public presentation row owned by user `1` (the parent of the
sample items). -/
def samplePres : PresentationRow :=
  { id := 7, user_id := some 1, is_public := true, title := "t",
    refresh_interval := 5 }

/-- A sample valid upload file. -/
def samplePngFile : JsFile :=
  { name := "a b.png", type := "image/png", size := 100 }

/-! ## Theorems -/

/-- Iterating the auto-advance index update adds the iteration count modulo
the list length. -/
theorem advanceIndex_iterate (N : Nat) (k : Nat) :
    ∀ i : Nat, i < N → (advanceIndex N)^[k] i = (i + k) % N := by
  induction k with
  | zero =>
    intro i hi
    simpa [advanceIndex] using (Nat.mod_eq_of_lt hi).symm
  | succ k ih =>
    intro i hi
    have hN : 0 < N := by omega
    rw [Function.iterate_succ_apply]
    show (advanceIndex N)^[k] ((i + 1) % N) = (i + (k + 1)) % N
    rw [ih ((i + 1) % N) (Nat.mod_lt _ hN), Nat.mod_add_mod]
    congr 1
    omega

/-- C2: for every non-empty item list of length `N` and every starting index
`i < N`, applying the auto-advance step `i ↦ (i + 1) % N` exactly `N` times
returns to `i`, and every single advance lands in `[0, N)`. -/
theorem c2_advance_cycles (N i : Nat) (hN : 0 < N) (hi : i < N) :
    (advanceIndex N)^[N] i = i ∧ ∀ j : Nat, advanceIndex N j < N := by
  constructor
  · rw [advanceIndex_iterate N N i hi, Nat.add_mod_right, Nat.mod_eq_of_lt hi]
  · intro j
    exact Nat.mod_lt _ hN

/-- Witness for C2 at `N = 3`, `i = 1`. -/
theorem c2_advance_cycles_witness :
    (advanceIndex 3)^[3] 1 = 1 ∧ advanceIndex 3 2 < 3 := by
  have h := c2_advance_cycles 3 1 (by decide) (by decide)
  exact ⟨h.1, h.2 2⟩

/-- C3: when the active item's `display_time` is zero or negative, the
auto-advance effect schedules no timer, and the current index does not change
through timer expiry. -/
theorem c3_nonpositive_display_time_no_advance
    (items : List PresentationItem) (i : Nat) (item : PresentationItem)
    (hget : items[i]? = some item) (hdt : item.display_time ≤ 0) :
    autoAdvanceTimer items i = none ∧ stepOnTimerExpiry items i = i := by
  have hlen : ¬ items.length = 0 := by
    intro h
    rw [List.length_eq_zero.mp h] at hget
    simp at hget
  have htimer : autoAdvanceTimer items i = none := by
    unfold autoAdvanceTimer
    rw [if_neg hlen, hget]
    simp [hdt]
  refine ⟨htimer, ?_⟩
  unfold stepOnTimerExpiry
  rw [htimer]

/-- Witness for C3: a two-item list whose first item has `display_time = 0`
and whose second has `display_time = -1`. -/
theorem c3_nonpositive_display_time_no_advance_witness :
    autoAdvanceTimer
        [{ id := 1, presentation_id := 7, type := "image", title := "a",
           url := "", display_time := 0, order_index := 0 },
         { id := 2, presentation_id := 7, type := "powerbi", title := "b",
           url := "", display_time := -1, order_index := 1 }] 1 = none ∧
    stepOnTimerExpiry
        [{ id := 1, presentation_id := 7, type := "image", title := "a",
           url := "", display_time := 0, order_index := 0 },
         { id := 2, presentation_id := 7, type := "powerbi", title := "b",
           url := "", display_time := -1, order_index := 1 }] 1 = 1 :=
  c3_nonpositive_display_time_no_advance
    [{ id := 1, presentation_id := 7, type := "image", title := "a",
       url := "", display_time := 0, order_index := 0 },
     { id := 2, presentation_id := 7, type := "powerbi", title := "b",
       url := "", display_time := -1, order_index := 1 }] 1
    { id := 2, presentation_id := 7, type := "powerbi", title := "b",
      url := "", display_time := -1, order_index := 1 }
    (by decide) (by decide)

/-- The integer ceiling-division used by the countdown brackets its argument:
`x ≤ 1000 * jsCeilDiv1000 x < x + 1000`. -/
theorem jsCeilDiv1000_spec (x : Int) :
    x ≤ 1000 * jsCeilDiv1000 x ∧ 1000 * jsCeilDiv1000 x < x + 1000 := by
  unfold jsCeilDiv1000
  split <;> omega

/-- Monotonicity of `jsCeilDiv1000`. -/
theorem jsCeilDiv1000_mono {x y : Int} (h : x ≤ y) :
    jsCeilDiv1000 x ≤ jsCeilDiv1000 y := by
  unfold jsCeilDiv1000
  split <;> split <;> omega

/-- The countdown's integer arithmetic computes the true rational ceiling. -/
theorem jsCeilDiv1000_eq_ceil (x : Int) :
    jsCeilDiv1000 x = ⌈(x : ℚ) / 1000⌉ := by
  have h := jsCeilDiv1000_spec x
  symm
  rw [Int.ceil_eq_iff]
  constructor
  · rw [lt_div_iff₀ (by norm_num : (0 : ℚ) < 1000)]
    have : (1000 : Int) * jsCeilDiv1000 x - 1000 < x := by omega
    calc ((jsCeilDiv1000 x : ℚ) - 1) * 1000
        = ((1000 * jsCeilDiv1000 x - 1000 : Int) : ℚ) := by push_cast; ring
      _ < (x : ℚ) := by exact_mod_cast this
  · rw [div_le_iff₀ (by norm_num : (0 : ℚ) < 1000)]
    have : x ≤ 1000 * jsCeilDiv1000 x := h.1
    calc (x : ℚ) ≤ ((1000 * jsCeilDiv1000 x : Int) : ℚ) := by exact_mod_cast this
      _ = (jsCeilDiv1000 x : ℚ) * 1000 := by push_cast; ring

/-- C7: at every countdown tick with elapsed time `e` (ms) for the active
slide's `display_time = d` (minutes), the displayed remaining seconds equals
`max 0 ⌈(d * 60000 - e) / 1000⌉` (true rational ceiling); it is never
negative, never exceeds the initially displayed value, and is non-increasing
as elapsed time grows. -/
theorem c7_slide_countdown (d e : Int) (hd : 0 < d) (he : 0 ≤ e) :
    slideRemaining d e = max 0 ⌈((d * 60000 - e : Int) : ℚ) / 1000⌉ ∧
    0 ≤ slideRemaining d e ∧
    slideRemaining d e ≤ initialSlideRemaining d ∧
    ∀ e2, e ≤ e2 → slideRemaining d e2 ≤ slideRemaining d e := by
  refine ⟨?_, ?_, ?_, ?_⟩
  · rw [slideRemaining, jsCeilDiv1000_eq_ceil]
  · exact le_max_left 0 _
  · have hmono : jsCeilDiv1000 (d * 60000 - e) ≤ jsCeilDiv1000 (d * 60000) :=
      jsCeilDiv1000_mono (by omega)
    have hpos : 0 ≤ jsCeilDiv1000 (d * 60000) := by
      have := jsCeilDiv1000_spec (d * 60000)
      omega
    rw [slideRemaining, initialSlideRemaining]
    omega
  · intro e2 he2
    have hmono : jsCeilDiv1000 (d * 60000 - e2) ≤ jsCeilDiv1000 (d * 60000 - e) :=
      jsCeilDiv1000_mono (by omega)
    rw [slideRemaining, slideRemaining]
    omega

/-- Witness for C7 at `d = 1`, `e = 30500`, `e2 = 40000`. -/
theorem c7_slide_countdown_witness :
    slideRemaining 1 30500 = max 0 ⌈((1 * 60000 - 30500 : Int) : ℚ) / 1000⌉ ∧
    0 ≤ slideRemaining 1 30500 ∧
    slideRemaining 1 30500 ≤ initialSlideRemaining 1 ∧
    slideRemaining 1 40000 ≤ slideRemaining 1 30500 := by
  have h := c7_slide_countdown 1 30500 (by decide) (by decide)
  exact ⟨h.1, h.2.1, h.2.2.1, h.2.2.2 40000 (by decide)⟩

/-- C1: in the reorder flow, when the pre-mutation cache snapshot is `prev`,
any failed per-item update rolls the displayed order (and the cache) back to
`prev` and surfaces an error; when every update succeeds the displayed order
is the reordered sequence and no error is surfaced. -/
theorem c1_reorder_rollback (st : ManagerState)
    (reorderedItems : List PresentationItem) (updateResults : List Bool)
    (prev : List PresentationItem) (hsnap : st.cacheItems = some prev) :
    (updateResults.all (fun r => r) = false →
      (handleDragEndFlow st reorderedItems updateResults).1.localItems = prev ∧
      (handleDragEndFlow st reorderedItems updateResults).1.cacheItems = some prev ∧
      (handleDragEndFlow st reorderedItems updateResults).2 = true) ∧
    (updateResults.all (fun r => r) = true →
      (handleDragEndFlow st reorderedItems updateResults).1.localItems = reorderedItems ∧
      (handleDragEndFlow st reorderedItems updateResults).1.cacheItems = some reorderedItems ∧
      (handleDragEndFlow st reorderedItems updateResults).2 = false) := by
  constructor <;> intro h <;>
    simp [handleDragEndFlow, reorderMutationRun, h, hsnap]

/-- Witness for C1: with cached order `[A, B]`, reordering to `[B, A]` with
one failed update rolls back to `[A, B]`; with both updates succeeding the
displayed order is `[B, A]`. -/
theorem c1_reorder_rollback_witness :
    ((handleDragEndFlow
        { cacheItems := some [sampleItemA, sampleItemB],
          localItems := [sampleItemA, sampleItemB] }
        [sampleItemB, sampleItemA] [true, false]).1.localItems =
      [sampleItemA, sampleItemB]) ∧
    ((handleDragEndFlow
        { cacheItems := some [sampleItemA, sampleItemB],
          localItems := [sampleItemA, sampleItemB] }
        [sampleItemB, sampleItemA] [true, true]).1.localItems =
      [sampleItemB, sampleItemA]) := by
  refine ⟨?_, ?_⟩
  · exact ((c1_reorder_rollback
      { cacheItems := some [sampleItemA, sampleItemB],
        localItems := [sampleItemA, sampleItemB] }
      [sampleItemB, sampleItemA] [true, false]
      [sampleItemA, sampleItemB] rfl).1 (by decide)).1
  · exact ((c1_reorder_rollback
      { cacheItems := some [sampleItemA, sampleItemB],
        localItems := [sampleItemA, sampleItemB] }
      [sampleItemB, sampleItemA] [true, true]
      [sampleItemA, sampleItemB] rfl).2 (by decide)).1

/-- The modelled `findIndex` returns `-1` exactly when no item carries the id. -/
theorem findIndexJs_eq_neg_one (items : List PresentationItem) (targetId : Nat)
    (h : ∀ item ∈ items, item.id ≠ targetId) :
    findIndexJs items targetId = -1 := by
  unfold findIndexJs
  have hnone : items.findIdx? (fun item => item.id == targetId) = none := by
    rw [List.findIdx?_eq_none_iff]
    intro item hmem
    simpa using h item hmem
  rw [hnone]

/-- C10: a drag-end event with no drop target, or whose drop target equals
the dragged item, or either of whose ids is absent from the local list, is a
no-op: the local list is unchanged and no reorder mutation is issued. -/
theorem c10_dragend_noop (items : List PresentationItem) (activeId : Nat)
    (overId : Option Nat)
    (h : overId = none ∨ overId = some activeId ∨
      (∀ item ∈ items, item.id ≠ activeId) ∨
      (∃ ov, overId = some ov ∧ ∀ item ∈ items, item.id ≠ ov)) :
    handleDragEnd items activeId overId = (items, none) := by
  rcases h with rfl | rfl | hact | ⟨ov, rfl, hov⟩
  · rfl
  · simp [handleDragEnd]
  · cases overId with
    | none => rfl
    | some ov =>
      by_cases heq : activeId = ov
      · simp [handleDragEnd, heq]
      · have hidx := findIndexJs_eq_neg_one items activeId hact
        simp [handleDragEnd, heq, hidx]
  · by_cases heq : activeId = ov
    · simp [handleDragEnd, heq]
    · have hidx := findIndexJs_eq_neg_one items ov hov
      simp [handleDragEnd, heq, hidx]

/-- Witness for C10: dragging an id that is not in the list is a no-op. -/
theorem c10_dragend_noop_witness :
    handleDragEnd [sampleItemA, sampleItemB] 99 (some 1) =
      ([sampleItemA, sampleItemB], none) :=
  c10_dragend_noop [sampleItemA, sampleItemB] 99 (some 1)
    (Or.inr (Or.inr (Or.inl (by decide))))

/-- C4 counterexample: the order_index invariant holds of the three sample
items (indexes `0, 1, 2`) but deleting the middle item leaves indexes
`0, 2` — unique but not contiguous — so deletion does not preserve the
claimed invariant. -/
theorem c4_delete_breaks_contiguity :
    OrderInvariant [sampleItemA, sampleItemB, sampleItemC] ∧
    ¬ OrderInvariant (deleteItemOp [sampleItemA, sampleItemB, sampleItemC] 2) := by
  decide

/-- The bulk rewrite of `reorderItemsMutation` assigns each item its position
as `order_index`. -/
theorem ordIndexes_reorder (l : List PresentationItem) :
    ordIndexes (reorderItemsOp l) = (List.range l.length).map Int.ofNat := by
  rw [ordIndexes, reorderItemsOp, List.mapIdx_eq_enum_map, List.map_map,
    ← List.enum_map_fst l, List.map_map]
  refine List.map_congr_left ?_
  rintro ⟨i, item⟩ _
  rfl

/-- C4 amended: reordering re-establishes the unique-and-contiguous
order_index invariant unconditionally, and adding an item preserves it; but
deletion only preserves uniqueness (the counterexample above shows
contiguity is lost when a non-last item is removed). -/
theorem c4_amended_order_invariant (items : List PresentationItem)
    (newId pid targetId : Nat) (ty : String) :
    OrderInvariant (reorderItemsOp items) ∧
    (OrderInvariant items → OrderInvariant (addItemOp items newId pid ty)) ∧
    ((ordIndexes items).Nodup → (ordIndexes (deleteItemOp items targetId)).Nodup) := by
  refine ⟨?_, ?_, ?_⟩
  · unfold OrderInvariant
    rw [ordIndexes_reorder]
    have hlen : (reorderItemsOp items).length = items.length := by
      rw [reorderItemsOp, List.length_mapIdx]
    rw [hlen]
  · intro h
    unfold OrderInvariant at h ⊢
    have hord : ordIndexes (addItemOp items newId pid ty) =
        ordIndexes items ++ [(items.length : Int)] := by
      simp [ordIndexes, addItemOp]
    have hlen : (addItemOp items newId pid ty).length = items.length + 1 := by
      simp [addItemOp]
    rw [hord, hlen, List.range_succ, List.map_append]
    exact h.append (List.Perm.refl _)
  · intro h
    have hsub : List.Sublist (ordIndexes (deleteItemOp items targetId))
        (ordIndexes items) :=
      (List.filter_sublist items).map _
    exact hsub.nodup h

/-- Witness for the amended C4 on the sample items. -/
theorem c4_amended_order_invariant_witness :
    OrderInvariant (reorderItemsOp [sampleItemC, sampleItemA]) ∧
    OrderInvariant (addItemOp [sampleItemA, sampleItemB, sampleItemC] 4 7 "image") ∧
    (ordIndexes (deleteItemOp [sampleItemA, sampleItemB, sampleItemC] 2)).Nodup := by
  have h1 := c4_amended_order_invariant [sampleItemC, sampleItemA] 4 7 2 "image"
  have h2 := c4_amended_order_invariant [sampleItemA, sampleItemB, sampleItemC] 4 7 2 "image"
  exact ⟨h1.1, h2.2.1 (by decide), h2.2.2 (by decide)⟩

/-- C5: for a session that does not own presentation `p` (in particular an
anonymous one), the policies reject updating or deleting `p` and inserting,
updating or deleting items of `p`; and such a session can select an item of
`p` exactly when `p` is public and the item's type is not `powerbi`
case-insensitively.  `huniq` is the primary-key property of the
presentations table. -/
theorem c5_rls_non_owner (s : SessionCtx) (ps : List PresentationRow)
    (p : PresentationRow) (item : PresentationItem)
    (hmem : p ∈ ps) (hpid : item.presentation_id = p.id)
    (huniq : ∀ q ∈ ps, q.id = p.id → q = p)
    (hnotowner : isOwner s p = false) :
    presUpdateAllowed s p = false ∧
    presDeleteAllowed s p = false ∧
    itemInsertAllowed s ps item = false ∧
    itemUpdateAllowed s ps item = false ∧
    itemDeleteAllowed s ps item = false ∧
    (itemSelectAllowed s ps item = true ↔
      (p.is_public = true ∧ sqlLower item.type ≠ "powerbi")) := by
  have hop : ownsParent s ps item = false := by
    rw [ownsParent]
    rw [List.any_eq_false]
    intro q hq
    by_cases hid : q.id = p.id
    · rw [huniq q hq hid]
      simp [hnotowner]
    · have : ¬ q.id = item.presentation_id := by rw [hpid]; exact hid
      simp [this]
  refine ⟨by simp [presUpdateAllowed, hnotowner],
    by simp [presDeleteAllowed, hnotowner],
    by simp [itemInsertAllowed, hop],
    by simp [itemUpdateAllowed, hop],
    by simp [itemDeleteAllowed, hop], ?_⟩
  rw [itemSelectAllowed, List.any_eq_true]
  constructor
  · rintro ⟨q, hq, hpred⟩
    simp only [Bool.and_eq_true, beq_iff_eq, Bool.or_eq_true] at hpred
    obtain ⟨hqid, hdisj⟩ := hpred
    have hqp : q = p := huniq q hq (by rw [hqid, hpid])
    subst hqp
    rcases hdisj with howner | hok
    · rw [hnotowner] at howner
      cases howner
    · simp only [Bool.and_eq_true, bne_iff_ne] at hok
      exact ⟨hok.1, hok.2⟩
  · rintro ⟨hpub, hty⟩
    refine ⟨p, hmem, ?_⟩
    simp [hpid, hpub, hty, bne_iff_ne]

/-- Witness for C5: an authenticated session `uid = 5` against the sample
public presentation owned by user `1`: every mutation path is rejected while
the image item remains selectable. -/
theorem c5_rls_non_owner_witness :
    presUpdateAllowed { auth_uid := some 5 } samplePres = false ∧
    itemInsertAllowed { auth_uid := some 5 } [samplePres] sampleItemA = false ∧
    itemDeleteAllowed { auth_uid := some 5 } [samplePres] sampleItemA = false ∧
    itemSelectAllowed { auth_uid := some 5 } [samplePres] sampleItemA = true := by
  have h := c5_rls_non_owner { auth_uid := some 5 } [samplePres] samplePres
    sampleItemA (by decide) (by decide) (by decide) (by decide)
  exact ⟨h.1, h.2.2.1, h.2.2.2.2.1, h.2.2.2.2.2.mpr (by decide)⟩

/-- C6: `validateImageFile` accepts exactly the files whose MIME type is in
the allow-list and whose size is at most 20 MiB; when it rejects,
`handleImageUpload` returns before the compression step and before any
storage call. -/
theorem c6_validation_gates_upload (f : JsFile) :
    (validateImageFile f = true ↔
      (f.type ∈ allowedTypes ∧ f.size ≤ 20 * 1024 * 1024)) ∧
    (∀ compressAttempt now uploadOk, validateImageFile f = false →
      handleImageUpload f compressAttempt now uploadOk =
        { compressAttempted := false, uploadedFile := none, storageKey := none,
          itemUrlUpdated := false }) := by
  constructor
  · rw [validateImageFile, maxSizeBeforeCompression]
    by_cases hmem : f.type ∈ allowedTypes
    · have hc : allowedTypes.contains f.type = true := List.elem_iff.mpr hmem
      simp only [hc, Bool.not_true, Bool.false_eq_true, if_false]
      constructor
      · intro h
        refine ⟨hmem, ?_⟩
        by_cases hgt : f.size > 20 * 1024 * 1024
        · rw [if_pos hgt] at h
          cases h
        · omega
      · rintro ⟨-, hle⟩
        rw [if_neg (by omega)]
    · have hc : allowedTypes.contains f.type = false := by
        rw [← Bool.not_eq_true]
        intro hcontra
        exact hmem (List.elem_iff.mp hcontra)
      simp only [hc, Bool.not_false, if_true]
      simp [hmem]
  · intro ca now ok hval
    rw [handleImageUpload, hval]
    rfl

/-- Witness for C6: a text file is rejected with no compression and no
storage call; the sample PNG satisfies the acceptance characterization. -/
theorem c6_validation_gates_upload_witness :
    (handleImageUpload { name := "x.txt", type := "text/plain", size := 10 }
        (Except.error "boom") 0 true =
      { compressAttempted := false, uploadedFile := none, storageKey := none,
        itemUrlUpdated := false }) ∧
    validateImageFile samplePngFile = true := by
  constructor
  · exact (c6_validation_gates_upload
      { name := "x.txt", type := "text/plain", size := 10 }).2
      (Except.error "boom") 0 true (by decide)
  · exact (c6_validation_gates_upload samplePngFile).1.mpr (by decide)

/-- C9: `compressImage` never propagates the compression error: a successful
attempt yields the compressed file, a failed attempt yields the original
file unchanged, the options bound the output to 1 MB / 1920 px, and after a
failed compression the upload proceeds with the original file. -/
theorem c9_compress_failure_fallback (f : JsFile) :
    (∀ c, compressImage f (Except.ok c) = c) ∧
    (∀ e, compressImage f (Except.error e) = f) ∧
    compressionOptions.maxSizeMB = 1 ∧
    compressionOptions.maxWidthOrHeight = 1920 ∧
    (∀ e now uploadOk, validateImageFile f = true →
      (handleImageUpload f (Except.error e) now uploadOk).uploadedFile = some f) := by
  refine ⟨fun c => rfl, fun e => rfl, rfl, rfl, ?_⟩
  intro e now ok hval
  rw [handleImageUpload, hval]
  rfl

/-- Witness for C9: the sample PNG upload with a failing compression attempt
still uploads the original file. -/
theorem c9_compress_failure_fallback_witness :
    (handleImageUpload samplePngFile (Except.error "oom") 5 true).uploadedFile =
      some samplePngFile :=
  (c9_compress_failure_fallback samplePngFile).2.2.2.2 "oom" 5 true (by decide)

/-- C8 counterexample: sanitizing `"a b"` yields `"a_b"` — the space is
replaced by an underscore, not stripped, and the result contains the
non-alphanumeric character `'_'`; so the sanitization step does not strip
all non-alphanumeric characters as claimed. -/
theorem c8_sanitize_keeps_non_alphanumeric :
    sanitizeFileName "a b" = "a_b" ∧
    '_' ∈ (sanitizeFileName "a b").toList ∧
    '_'.isAlphanum = false := by
  decide

/-- Characters survive `collapseUnderscores` only from the input list. -/
theorem mem_collapseUnderscores {c : Char} :
    ∀ l : List Char, c ∈ collapseUnderscores l → c ∈ l := by
  intro l
  induction l with
  | nil => simp [collapseUnderscores]
  | cons a tail ih =>
    cases tail with
    | nil => simp [collapseUnderscores]
    | cons b rest =>
      intro hmem
      rw [collapseUnderscores] at hmem
      split at hmem
      · exact List.mem_cons_of_mem a (ih hmem)
      · rcases List.mem_cons.mp hmem with rfl | h
        · exact List.mem_cons_self _ _
        · exact List.mem_cons_of_mem a (ih h)

/-- A character kept by the `[a-zA-Z0-9.-]` class is not a combining mark. -/
theorem isKeptChar_not_combining {c : Char} (h : isKeptChar c = true) :
    isCombiningMark c = false := by
  simp only [isKeptChar, Bool.or_eq_true, Bool.and_eq_true, decide_eq_true_eq,
    beq_iff_eq, isCombiningMark, Bool.and_eq_false_iff, decide_eq_false_iff_not,
    not_le] at h ⊢
  omega

/-- C8 amended: the storage key is the decimal timestamp, an underscore, and
the sanitized name; the sanitized name's characters all lie in
`[a-zA-Z0-9.-]` or are underscores (characters outside the class are
replaced by `_`, not stripped), and none is a combining diacritical mark. -/
theorem c8_amended_sanitized_key (now : Nat) (nfdName : String) :
    buildFileName now nfdName = toString now ++ "_" ++ sanitizeFileName nfdName ∧
    ∀ c ∈ (sanitizeFileName nfdName).toList,
      (isKeptChar c = true ∨ c = '_') ∧ isCombiningMark c = false := by
  refine ⟨rfl, ?_⟩
  intro c hc
  have hmem : c ∈ collapseUnderscores ((nfdName.toList.filter
      (fun c => !(isCombiningMark c))).map
      (fun c => if isKeptChar c then c else '_')) := hc
  have hmem2 := mem_collapseUnderscores _ hmem
  rw [List.mem_map] at hmem2
  obtain ⟨x, _, hxc⟩ := hmem2
  by_cases hk : isKeptChar x = true
  · rw [if_pos hk] at hxc
    subst hxc
    exact ⟨Or.inl hk, isKeptChar_not_combining hk⟩
  · rw [if_neg hk] at hxc
    subst hxc
    exact ⟨Or.inr rfl, by decide⟩

/-- Witness for the amended C8 on the name `"a b"`: the key decomposes as
`"12" ++ "_" ++ "a_b"` and its sanitized part's character `'b'` is in the
allowed class and is not a combining mark. -/
theorem c8_amended_sanitized_key_witness :
    buildFileName 12 "a b" = toString 12 ++ "_" ++ sanitizeFileName "a b" ∧
    ((isKeptChar 'b' = true ∨ 'b' = '_') ∧ isCombiningMark 'b' = false) := by
  have h := c8_amended_sanitized_key 12 "a b"
  exact ⟨h.1, h.2 'b' (by decide)⟩

end Kiosk
